import Mathlib

/-!
Verification of the atomico core against its specification.

The repository ships the type declarations (`types/core.d.ts`, `types/dom.d.ts`)
and the pragma test-suite (`src/tests/h.test.js`); the implementation module
`src/render.js` itself is not part of the sources.  The definitions below are
therefore modelled from the natural-language specification, with the behaviour
pinned wherever the shipped tests or the shipped `.d.ts` declarations fix it
(those two are repository code and take precedence over the prose).
-/

namespace Atomico

/-- A JavaScript primitive value as it appears in props and children.
`undef` stands for JavaScript's `undefined`, `null` for `null`. -/
inductive JSVal where
  | undef : JSVal
  | null : JSVal
  | bool : Bool → JSVal
  | num : Int → JSVal
  | str : String → JSVal
  deriving Repr, DecidableEq

/-- A props object: an insertion-ordered mapping from string keys to values.
The empty list models the empty object `{}`. -/
abbrev Props : Type := List (String × JSVal)

/-- JavaScript property access `p[k]`: the stored value when the key is
present, `undefined` otherwise. -/
def getProp (p : Props) (k : String) : JSVal :=
  match p with
  | [] => JSVal.undef
  | (k', v) :: rest => if k' = k then v else getProp rest k

/-- Whether a key is present in a props object (`k in p`). -/
def hasProp (p : Props) (k : String) : Bool :=
  match p with
  | [] => false
  | (k', _) :: rest => k' = k || hasProp rest k

/-- The `children` field of a VNode.  `seq` is an ordered sequence (a
JavaScript array); `scalar` is a single value stored as-is, the shape produced
when `props.children` is passed through without wrapping. -/
inductive Children where
  | seq : List JSVal → Children
  | scalar : JSVal → Children
  deriving Repr, DecidableEq

/-- The `type` argument of the pragma: a string tag name, an
already-constructed live element (identified by a numeric id), or an element
class / constructor reference (identified by a numeric id). -/
inductive VType where
  | strTag : String → VType
  | liveInstance : Nat → VType
  | ctorRef : Nat → VType
  deriving Repr, DecidableEq

/-- The `raw` discriminator of a VNode.  The test-suite pins its encoding:
`false` for a string tag, `1` for a live instance, `2` for a constructor
reference; here the three values are the three constructors. -/
inductive RawKind where
  | none : RawKind
  | liveInstance : RawKind
  | ctorRef : RawKind
  deriving Repr, DecidableEq

/-- Modelled from the spec: `raw` is `none` for a string tag, `live-instance`
for an already-constructed element and `constructor` for an element class
reference (§4.1); the tests encode these as `false` / `1` / `2`. -/
def rawOf : VType → RawKind
  | VType.strTag _ => RawKind.none
  | VType.liveInstance _ => RawKind.liveInstance
  | VType.ctorRef _ => RawKind.ctorRef

/-- The module-level marker value exported as `$$` and stamped on every VNode
built by the pragma (the tests compare the field `$$` against the exported
marker by identity). -/
def dollarSig : Nat := 0

/-- The VNode produced by the pragma, with the fields the test-suite
enumerates.  `dollar` models the `$$` brand field. -/
structure VNode where
  dollar : Nat
  type : VType
  props : Props
  children : Children
  key : JSVal
  shadow : JSVal
  static : JSVal
  clone : JSVal
  raw : RawKind
  is : JSVal
  deriving Repr, DecidableEq

/-- Modelled from the spec: the pragma `h(type, props, ...children)`
(`src/render.js` is not among the shipped sources).  Children: variadic
arguments, when present, become the ordered children sequence; otherwise
`props.children`, when present, is passed through unchanged without wrapping;
otherwise the children sequence is empty (§4.1, §8).  `key`, `shadowDom`,
`staticNode`, `cloneNode` and `is` are read from props and surfaced as
top-level fields; the shipped tests pin that the props mapping stored on the
VNode is the props argument unchanged (keys retained), and that a missing
props argument (omitted / null / undefined) yields the empty mapping. -/
def h (type : VType) (p : Option Props) (args : List JSVal) : VNode :=
  let props := p.getD []
  { dollar := dollarSig
    type := type
    props := props
    children :=
      if args = [] then
        if hasProp props "children" then Children.scalar (getProp props "children")
        else Children.seq []
      else Children.seq args
    key := getProp props "key"
    shadow := getProp props "shadowDom"
    static := getProp props "staticNode"
    clone := getProp props "cloneNode"
    raw := rawOf type
    is := getProp props "is" }

/-! ## Reconciler / patcher, modelled from the spec (§4.2)

`src/render.js` is not among the shipped sources; the diff/patch walk below
is modelled from the specification's algorithm.  A tree node is either a text
leaf or an element with a type, an optional key, `static` / `clone` flags,
props and an ordered child list.  The patcher records the DOM-level writes it
would perform; property comparisons themselves record nothing, so a no-op
diff is exactly an empty operation list. -/

/-- A DOM-level write operation performed by the reconciler. -/
inductive DomOp where
  | insertNode : DomOp
  | removeNode : DomOp
  | moveNode : DomOp
  | setText : String → DomOp
  | setProp : String → JSVal → DomOp
  | removeProp : String → DomOp
  deriving Repr, DecidableEq

/-- A node of the normalized render tree the reconciler walks: a text leaf,
or an element carrying its type, optional key, `static` and `clone` flags,
props and children. -/
inductive RTree where
  | text : String → RTree
  | node : VType → Option JSVal → Bool → Bool → Props → List RTree → RTree

/-- The identity key of a child, when it carries one. -/
def keyOf : RTree → Option JSVal
  | RTree.text _ => Option.none
  | RTree.node _ k _ _ _ _ => k

/-- The keys carried by a child list, in order. -/
def keysOf : List RTree → List JSVal
  | [] => []
  | c :: rest =>
      match keyOf c with
      | Option.some k => k :: keysOf rest
      | Option.none => keysOf rest

/-- Boolean membership in a key list. -/
def memKey : List JSVal → JSVal → Bool
  | [], _ => false
  | x :: rest, k => x = k || memKey rest k

/-- No key occurs twice: the spec's sibling-key uniqueness invariant (§3). -/
def nodupKeys : List JSVal → Bool
  | [] => true
  | k :: rest => !memKey rest k && nodupKeys rest

/-- Whether any child of the list carries a key (selects the keyed branch of
children reconciliation, §4.2 step 4). -/
def hasKeys : List RTree → Bool
  | [] => false
  | c :: rest => (keyOf c).isSome || hasKeys rest

/-- The n-th element of a list, if any. -/
def nth {α : Type} : List α → Nat → Option α
  | [], _ => Option.none
  | c :: _, 0 => Option.some c
  | _ :: rest, n + 1 => nth rest n

/-- Locate the previous child carrying key `k`, together with its position;
`i` is the position of the list's head. -/
def findByKey : List RTree → JSVal → Nat → Option (Nat × RTree)
  | [], _, _ => Option.none
  | c :: rest, k, i =>
      if keyOf c = Option.some k then Option.some (i, c)
      else findByKey rest k (i + 1)

/-- Modelled from the spec: property application (§4.2 step 3).  Keys absent
from the new props are removed; keys whose new value differs from the old
one are (re)applied; equal values record no write. -/
def diffProps (old new : Props) : List DomOp :=
  old.filterMap
      (fun kv =>
        if hasProp new kv.1 then Option.none
        else Option.some (DomOp.removeProp kv.1))
    ++ new.filterMap
      (fun kv =>
        if getProp old kv.1 = getProp new kv.1 then Option.none
        else Option.some (DomOp.setProp kv.1 (getProp new kv.1)))

/-- Mounting a fresh subtree: insert the node, set every property, mount the
children (§4.2 step 1, remount branch). -/
def mountOps : RTree → List DomOp
  | RTree.text s => [DomOp.insertNode, DomOp.setText s]
  | RTree.node _ _ _ _ pr ks =>
      DomOp.insertNode :: (pr.map fun kv => DomOp.setProp kv.1 kv.2)
        ++ mountForest ks
where mountForest : List RTree → List DomOp
  | [] => []
  | c :: rest => mountOps c ++ mountForest rest

/-- Removals of the keyed branch: a previous child whose key no longer occurs
among the next children is removed; a keyless previous child is removed when
its position falls beyond the next list.  `j` is the position of the head. -/
def keyedRemovals (next : List RTree) : List RTree → Nat → List DomOp
  | [], _ => []
  | p :: rest, j =>
      (match keyOf p with
       | Option.some k =>
          if memKey (keysOf next) k then [] else [DomOp.removeNode]
       | Option.none =>
          if j < next.length then [] else [DomOp.removeNode])
        ++ keyedRemovals next rest (j + 1)

mutual

/-- Modelled from the spec: the recursive diff/patch of one node (§4.2).
Step 1: a `type` mismatch (which covers a `raw`-kind mismatch, since `raw`
is determined by `type`) unmounts the previous subtree and mounts the next
one fresh.  Step 2: a `static` previous node is never revisited; a `clone`
next node receives property application but no child-by-child diffing.
Steps 3–4: property application, then keyed or positional children
reconciliation. -/
def patch : RTree → RTree → List DomOp
  | RTree.text s, RTree.text s2 =>
      if s = s2 then [] else [DomOp.setText s2]
  | RTree.text _, RTree.node t2 k2 st2 cl2 pr2 ks2 =>
      DomOp.removeNode :: mountOps (RTree.node t2 k2 st2 cl2 pr2 ks2)
  | RTree.node _ _ _ _ _ _, RTree.text s2 =>
      DomOp.removeNode :: mountOps (RTree.text s2)
  | RTree.node t _ st _ pr ks, RTree.node t2 k2 st2 cl2 pr2 ks2 =>
      if t = t2 then
        if st then []
        else
          diffProps pr pr2 ++
            (if cl2 then []
             else if hasKeys ks || hasKeys ks2 then
               keyedPatch ks ks2 0 ++ keyedRemovals ks2 ks 0
             else positionalPatch ks ks2)
      else DomOp.removeNode :: mountOps (RTree.node t2 k2 st2 cl2 pr2 ks2)
  termination_by structural _ next => next

/-- The keyed branch over the next children (§4.2 step 4): a keyed child is
matched to the previous child with the same key — diffed in place, with a
move recorded when its position changed — or mounted when the key is new; a
keyless child is matched positionally.  `i` is the position of the head. -/
def keyedPatch : List RTree → List RTree → Nat → List DomOp
  | _, [], _ => []
  | prev, c :: rest, i =>
      (match keyOf c with
       | Option.some k =>
          match findByKey prev k 0 with
          | Option.some (j, p) =>
              (if j = i then [] else [DomOp.moveNode]) ++ patch p c
          | Option.none => mountOps c
       | Option.none =>
          match nth prev i with
          | Option.some p => patch p c
          | Option.none => mountOps c)
        ++ keyedPatch prev rest (i + 1)
  termination_by structural _ next _ => next

/-- The positional branch (§4.2 step 4, unkeyed): children are matched by
index; a next-list tail beyond the previous list is mounted, a previous-list
tail beyond the next list is unmounted. -/
def positionalPatch : List RTree → List RTree → List DomOp
  | prev, [] => prev.map fun _ => DomOp.removeNode
  | [], c :: rest => mountOps c ++ positionalPatch [] rest
  | p :: ps, c :: cs => patch p c ++ positionalPatch ps cs
  termination_by structural _ next => next

end

mutual

/-- The spec's sibling-key uniqueness invariant (§3), recursively: at every
node of the tree, the keys carried by the children are pairwise distinct. -/
def wfKeys : RTree → Bool
  | RTree.text _ => true
  | RTree.node _ _ _ _ _ ks => nodupKeys (keysOf ks) && wfForest ks
  termination_by structural t => t

/-- All trees of a forest satisfy `wfKeys`. -/
def wfForest : List RTree → Bool
  | [] => true
  | c :: rest => wfKeys c && wfForest rest
  termination_by structural l => l

end

/-- A container node of the live document, identified by its identity. -/
structure DomNode where
  id : Nat
  deriving Repr, DecidableEq

/-- Modelled from the spec: the public render/commit operation — one
render+patch cycle against the container's previously committed tree (§4.2,
§6).  The shipped declaration `types/core.d.ts` (lines 180–184) pins the
signature: `render<T>(vnode, node, id?): T` returns the container node it
rendered into.  The second component is the list of DOM writes of the
cycle. -/
def render (vnode : RTree) (node : DomNode) (prev : Option RTree) :
    DomNode × List DomOp :=
  (node,
   match prev with
   | Option.some p => patch p vnode
   | Option.none => mountOps vnode)

/-! ## Hooks store and render context, modelled from the spec (§3, §4.3) -/

/-- The hook variants of the runtime, one per hook primitive (§3, §4.3). -/
inductive HookVariant where
  | state : HookVariant
  | reducer : HookVariant
  | ref : HookVariant
  | memo : HookVariant
  | callback : HookVariant
  | effect : HookVariant
  | layoutEffect : HookVariant
  | host : HookVariant
  | prop : HookVariant
  | event : HookVariant
  | update : HookVariant
  deriving Repr, DecidableEq

/-- Modelled from the spec: the per-instance hooks store — the sequence of
hook-record variants, in call order, recorded by the previous render (§3). -/
structure HooksStore where
  recorded : List HookVariant
  deriving Repr, DecidableEq

/-- The fatal structural inconsistency of §7, carrying the hook index at
which the call order diverged. -/
inductive HookError where
  | orderMismatch : Nat → HookError
  deriving Repr, DecidableEq

/-- Modelled from the spec: replaying one render's hook-variant call
sequence against the variants recorded by the previous render.  Each call
consumes the record at the current index and fails fatally when the variant
differs or the calls run past the recorded store; a render that ends before
consuming the whole store is the same fatal inconsistency (§3, §4.3, §7). -/
def replayHooks : List HookVariant → List HookVariant → Nat →
    Except HookError Unit
  | [], [], _ => Except.ok ()
  | [], _ :: _, i => Except.error (HookError.orderMismatch i)
  | _ :: _, [], i => Except.error (HookError.orderMismatch i)
  | v :: calls, r :: recs, i =>
      if v = r then replayHooks calls recs (i + 1)
      else Except.error (HookError.orderMismatch i)

/-- Modelled from the spec: one render pass of an instance's hooks.  On the
first render (no store yet) the records are allocated lazily, in call order;
on a later render the call sequence is replayed against the store and any
mismatch aborts the render, surfacing the error to the caller (§4.3). -/
def renderHooks (store : Option HooksStore) (calls : List HookVariant) :
    Except HookError HooksStore :=
  match store with
  | Option.none => Except.ok ⟨calls⟩
  | Option.some s =>
      match replayHooks calls s.recorded 0 with
      | Except.ok _ => Except.ok s
      | Except.error e => Except.error e

/-! ## Scheduler, modelled from the spec (§4.4) -/

/-- The per-instance scheduler states (§4.4). -/
inductive SchedState where
  | idle : SchedState
  | scheduled : SchedState
  | rendering : SchedState
  | committed : SchedState
  | effectsPending : SchedState
  | unmounted : SchedState
  deriving Repr, DecidableEq

/-- Modelled from the spec: the scheduling-relevant view of one instance —
its scheduler state, the latest pending state value, the value observed by
the last completed render, the log of values observed by completed renders
(in order), and the number of deferred render callbacks currently enqueued
(§4.4). -/
structure Instance (α : Type) where
  status : SchedState
  pending : Option α
  current : α
  renderLog : List α
  queued : Nat
  deriving Repr, DecidableEq

/-- Modelled from the spec: a state-setter call (§4.4, §7).  While `idle`
(or after a commit) it stores the value, moves to `scheduled` and enqueues
one deferred render callback; while already `scheduled` or `rendering` it
only overwrites the pending value — coalescing, no further callback; on an
unmounted instance it is a silent no-op. -/
def setState {α : Type} (v : α) (inst : Instance α) : Instance α :=
  match inst.status with
  | SchedState.unmounted => inst
  | SchedState.scheduled => { inst with pending := Option.some v }
  | SchedState.rendering => { inst with pending := Option.some v }
  | _ =>
      { inst with
        status := SchedState.scheduled
        pending := Option.some v
        queued := inst.queued + 1 }

/-- Modelled from the spec: the deferred render callback of one scheduling
window.  A scheduled instance renders synchronously: the render observes the
pending value, which is appended to the render log, and the instance returns
to `idle` with the batch consumed; in any other state the callback does
nothing (§4.4). -/
def flushRender {α : Type} (inst : Instance α) : Instance α :=
  match inst.status, inst.pending with
  | SchedState.scheduled, Option.some v =>
      { inst with
        status := SchedState.idle
        pending := Option.none
        current := v
        renderLog := inst.renderLog ++ [v]
        queued := inst.queued - 1 }
  | _, _ => inst

/-- A sequence of synchronous state-setter calls, applied left to right. -/
def applySetters {α : Type} (vs : List α) (inst : Instance α) : Instance α :=
  match vs with
  | [] => inst
  | v :: rest => applySetters rest (setState v inst)

/-- The last element of a list, with a default for the empty list. -/
def lastD {α : Type} (d : α) : List α → α
  | [] => d
  | x :: rest => lastD x rest

/-- The VNode the first test (`pragma#type`, string case) expects. -/
example : h (VType.strTag "span") Option.none [] =
    { dollar := dollarSig
      type := VType.strTag "span"
      props := []
      children := Children.seq []
      key := JSVal.undef
      shadow := JSVal.undef
      static := JSVal.undef
      clone := JSVal.undef
      raw := RawKind.none
      is := JSVal.undef } := by
  decide

/-- From the `pragma#props` test: `h("span", { children: 10 })` has children
`10`, not wrapped. -/
example :
    (h (VType.strTag "span") (Option.some [("children", JSVal.num 10)]) []).children
      = Children.scalar (JSVal.num 10) := by
  decide

/-- From the `pragma#props` test: `h("span", {}, 10)` has children `[10]`. -/
example :
    (h (VType.strTag "span") (Option.some []) [JSVal.num 10]).children
      = Children.seq [JSVal.num 10] := by
  decide

/-- From the `pragma#props.staticNode` test: `h("span", { staticNode: true })`
has `static` equal to `true` and props still holding `staticNode`. -/
example :
    (h (VType.strTag "span") (Option.some [("staticNode", JSVal.bool true)]) []).static
        = JSVal.bool true
      ∧ (h (VType.strTag "span") (Option.some [("staticNode", JSVal.bool true)]) []).props
        = [("staticNode", JSVal.bool true)] := by
  constructor <;> decide

/-- C1: a variadic child argument list of length one yields a one-element
children sequence; when no variadic children are given and `props.children`
is present, `props.children` becomes the VNode's children unchanged, without
wrapping; with neither, children is the empty sequence. -/
theorem h_children_normalized (t : VType) (p : Props) (v : JSVal) :
    (h t (Option.some p) [v]).children = Children.seq [v]
      ∧ (hasProp p "children" = true →
          (h t (Option.some p) []).children = Children.scalar (getProp p "children"))
      ∧ (hasProp p "children" = false →
          (h t (Option.some p) []).children = Children.seq []) := by
  refine ⟨by simp [h], ?_, ?_⟩ <;> intro hc <;> simp_all [h]

/-- Witness for C1 at the inputs of the `pragma#props` test: `h("span", {},
10)` yields children `[10]`; `h("span", {children: 10})` yields children `10`
unwrapped; `h("span", {})` yields children `[]`. -/
theorem h_children_normalized_witness :
    (h (VType.strTag "span") (Option.some []) [JSVal.num 10]).children
        = Children.seq [JSVal.num 10]
      ∧ (h (VType.strTag "span") (Option.some [("children", JSVal.num 10)]) []).children
        = Children.scalar (getProp [("children", JSVal.num 10)] "children")
      ∧ (h (VType.strTag "span") (Option.some []) []).children = Children.seq [] :=
  ⟨(h_children_normalized (VType.strTag "span") [] (JSVal.num 10)).1,
   (h_children_normalized (VType.strTag "span") [("children", JSVal.num 10)]
      (JSVal.num 10)).2.1 (by decide),
   (h_children_normalized (VType.strTag "span") [] (JSVal.num 10)).2.2 (by decide)⟩

/-- C2 counterexample: the claim says `staticNode` is removed from the props
mapping stored on the VNode, but for `h("span", {staticNode: true})` the flag
is surfaced as `static: true` while the stored props mapping still contains
the key `staticNode` — exactly what the shipped `pragma#props.staticNode`
test asserts (and likewise `cloneNode` in `pragma#props.cloneNode`). -/
theorem h_staticNode_retained_counterexample :
    (h (VType.strTag "span") (Option.some [("staticNode", JSVal.bool true)]) []).static
        = JSVal.bool true
      ∧ hasProp
          (h (VType.strTag "span")
            (Option.some [("staticNode", JSVal.bool true)]) []).props "staticNode"
        = true
      ∧ (h (VType.strTag "span") (Option.some [("cloneNode", JSVal.bool true)]) []).clone
        = JSVal.bool true
      ∧ hasProp
          (h (VType.strTag "span")
            (Option.some [("cloneNode", JSVal.bool true)]) []).props "cloneNode"
        = true := by
  decide

/-- C2 amended: `staticNode` (resp. `cloneNode`) in props is surfaced as the
top-level VNode field `static` (resp. `clone`), while the props mapping
stored on the resulting VNode is the props argument unchanged — the keys
`staticNode` and `cloneNode` are retained, not removed. -/
theorem h_flags_surfaced (t : VType) (p : Props) (a : List JSVal) :
    (h t (Option.some p) a).static = getProp p "staticNode"
      ∧ (h t (Option.some p) a).clone = getProp p "cloneNode"
      ∧ (h t (Option.some p) a).props = p :=
  ⟨rfl, rfl, rfl⟩

/-- C3: the VNode's `raw` discriminator is determined solely by the `type`
argument — `none` for a string tag, `live-instance` for an
already-constructed element, `constructor` for an element class reference. -/
theorem h_raw_determined_by_type (t : VType) (p q : Option Props)
    (a b : List JSVal) (s : String) (n m : Nat) :
    (h t p a).raw = (h t q b).raw
      ∧ (h (VType.strTag s) p a).raw = RawKind.none
      ∧ (h (VType.liveInstance n) p a).raw = RawKind.liveInstance
      ∧ (h (VType.ctorRef m) p a).raw = RawKind.ctorRef :=
  ⟨rfl, rfl, rfl, rfl⟩

/-- C9 counterexample: the claim says every call with the props argument
omitted / null / undefined yields `children = []`, but `h("span", null, 10)`
has no props argument and yields children `[10]`, not the empty sequence. -/
theorem h_absent_props_counterexample :
    (h (VType.strTag "span") Option.none [JSVal.num 10]).props = []
      ∧ (h (VType.strTag "span") Option.none [JSVal.num 10]).children
        = Children.seq [JSVal.num 10]
      ∧ Children.seq [JSVal.num 10] ≠ Children.seq [] := by
  refine ⟨rfl, rfl, ?_⟩
  decide

/-- C9 amended: for every call with the props argument omitted / null /
undefined, the VNode's props is the empty mapping and its `key`, `shadow`,
`static`, `clone` and `is` fields are all undefined; its children is the
empty sequence provided no variadic children are given. -/
theorem h_absent_props_defaults (t : VType) (a : List JSVal) :
    (h t Option.none a).props = []
      ∧ (a = [] → (h t Option.none a).children = Children.seq [])
      ∧ (h t Option.none a).key = JSVal.undef
      ∧ (h t Option.none a).shadow = JSVal.undef
      ∧ (h t Option.none a).static = JSVal.undef
      ∧ (h t Option.none a).clone = JSVal.undef
      ∧ (h t Option.none a).is = JSVal.undef := by
  refine ⟨rfl, ?_, rfl, rfl, rfl, rfl, rfl⟩
  intro ha
  subst ha
  rfl

/-- Witness for C9 amended, at `h("span")`: all defaulted fields as the
`pragma#type` test lists them. -/
theorem h_absent_props_defaults_witness :
    (h (VType.strTag "span") Option.none []).props = []
      ∧ ([] = ([] : List JSVal) →
          (h (VType.strTag "span") Option.none []).children = Children.seq [])
      ∧ (h (VType.strTag "span") Option.none []).key = JSVal.undef
      ∧ (h (VType.strTag "span") Option.none []).shadow = JSVal.undef
      ∧ (h (VType.strTag "span") Option.none []).static = JSVal.undef
      ∧ (h (VType.strTag "span") Option.none []).clone = JSVal.undef
      ∧ (h (VType.strTag "span") Option.none []).is = JSVal.undef :=
  h_absent_props_defaults (VType.strTag "span") []

/-- C10: every VNode built by the pragma carries the brand field `$$` equal
to the module's exported marker, for all three raw kinds of `type`. -/
theorem h_brand_marker (t : VType) (p : Option Props) (a : List JSVal) :
    (h t p a).dollar = dollarSig :=
  rfl

/-! ## A no-op diff on a deep-equal tree -/

theorem hasProp_of_mem (p : Props) (k : String) (v : JSVal)
    (hm : (k, v) ∈ p) : hasProp p k = true := by
  induction p with
  | nil => cases hm
  | cons kv rest ih =>
    obtain ⟨k', v'⟩ := kv
    rcases List.mem_cons.mp hm with he | ht
    · cases he
      simp [hasProp]
    · simp [hasProp, ih ht]

theorem diffProps_self (p : Props) : diffProps p p = [] := by
  unfold diffProps
  refine List.append_eq_nil.mpr ⟨?_, ?_⟩
  · rw [List.filterMap_eq_nil_iff]
    rintro ⟨k, v⟩ hm
    simpa using hasProp_of_mem p k v hm
  · rw [List.filterMap_eq_nil_iff]
    intro kv _
    simp

theorem memKey_keysOf (l : List RTree) (i : Nat) (c : RTree) (k : JSVal)
    (hn : nth l i = Option.some c) (hk : keyOf c = Option.some k) :
    memKey (keysOf l) k = true := by
  induction l generalizing i with
  | nil => simp [nth] at hn
  | cons d rest ih =>
    cases i with
    | zero =>
      rw [nth] at hn
      cases hn
      simp [keysOf, hk, memKey]
    | succ n =>
      rw [nth] at hn
      have hrec := ih n hn
      cases hd : keyOf d <;> simp [keysOf, hd, memKey, hrec]

theorem keysOf_tail_nodup (d : RTree) (rest : List RTree)
    (hnd : nodupKeys (keysOf (d :: rest)) = true) :
    nodupKeys (keysOf rest) = true := by
  cases hd : keyOf d with
  | some k' =>
    rw [keysOf, hd] at hnd
    rw [nodupKeys, Bool.and_eq_true] at hnd
    exact hnd.2
  | none =>
    rw [keysOf, hd] at hnd
    exact hnd

theorem findByKey_self (l : List RTree) (i : Nat) (c : RTree) (k : JSVal)
    (hnd : nodupKeys (keysOf l) = true)
    (hn : nth l i = Option.some c) (hk : keyOf c = Option.some k) :
    ∀ s : Nat, findByKey l k s = Option.some (s + i, c) := by
  induction l generalizing i with
  | nil => simp [nth] at hn
  | cons d rest ih =>
    intro s
    cases i with
    | zero =>
      rw [nth] at hn
      cases hn
      rw [findByKey, if_pos hk]
      simp
    | succ n =>
      rw [nth] at hn
      have hmem : memKey (keysOf rest) k = true := memKey_keysOf rest n c k hn hk
      have htl : nodupKeys (keysOf rest) = true := keysOf_tail_nodup d rest hnd
      have hne : ¬ keyOf d = Option.some k := by
        intro he
        rw [keysOf, he, nodupKeys, hmem] at hnd
        simp at hnd
      rw [findByKey, if_neg hne, ih n htl hn (s + 1)]
      have harith : s + 1 + n = s + (n + 1) := by omega
      rw [harith]

theorem nth_lt_length {α : Type} (l : List α) (i : Nat) (c : α)
    (hn : nth l i = Option.some c) : i < l.length := by
  induction l generalizing i with
  | nil => simp [nth] at hn
  | cons d rest ih =>
    cases i with
    | zero => simp
    | succ n =>
      rw [nth] at hn
      have := ih n hn
      simpa using Nat.succ_lt_succ this

theorem drop_cons_nth {α : Type} (l : List α) (i : Nat) (c : α)
    (rest : List α) (hd : List.drop i l = c :: rest) :
    nth l i = Option.some c ∧ List.drop (i + 1) l = rest := by
  induction i generalizing l with
  | zero =>
    rw [List.drop_zero] at hd
    subst hd
    exact ⟨rfl, by simp⟩
  | succ n ih =>
    cases l with
    | nil => simp at hd
    | cons d ls =>
      rw [List.drop_succ_cons] at hd
      have hr := ih ls hd
      exact ⟨hr.1, by simpa [List.drop_succ_cons] using hr.2⟩

theorem wfForest_nth (l : List RTree) (i : Nat) (c : RTree)
    (hw : wfForest l = true) (hn : nth l i = Option.some c) :
    wfKeys c = true := by
  induction l generalizing i with
  | nil => simp [nth] at hn
  | cons d rest ih =>
    rw [wfForest, Bool.and_eq_true] at hw
    cases i with
    | zero =>
      rw [nth] at hn
      cases hn
      exact hw.1
    | succ n =>
      rw [nth] at hn
      exact ih n hw.2 hn

theorem keyedRemovals_self (full : List RTree) (suffix : List RTree)
    (j : Nat) (hdrop : List.drop j full = suffix) :
    keyedRemovals full suffix j = [] := by
  induction suffix generalizing j with
  | nil => rw [keyedRemovals]
  | cons p rest ih =>
    have hn := (drop_cons_nth full j p rest hdrop).1
    have hr := (drop_cons_nth full j p rest hdrop).2
    rw [keyedRemovals]
    cases hk : keyOf p with
    | some k =>
      have hm := memKey_keysOf full j p k hn hk
      simp [hk, hm, ih (j + 1) hr]
    | none =>
      have hl := nth_lt_length full j p hn
      simp [hk, hl, ih (j + 1) hr]

mutual

theorem patch_self (t : RTree) (hw : wfKeys t = true) : patch t t = [] := by
  match t with
  | RTree.text s => simp [patch]
  | RTree.node ty k st cl pr ks =>
    rw [wfKeys, Bool.and_eq_true] at hw
    have hkp := keyedPatch_self ks ks 0 hw.2 hw.1 (List.drop_zero ks)
    have hkr := keyedRemovals_self ks ks 0 (List.drop_zero ks)
    have hpp := positionalPatch_self ks hw.2
    rw [patch, if_pos rfl, diffProps_self, hkp, hkr, hpp]
    simp
  termination_by structural t

theorem keyedPatch_self (full : List RTree) (suffix : List RTree) (i : Nat)
    (hwf : wfForest full = true) (hnd : nodupKeys (keysOf full) = true)
    (hdrop : List.drop i full = suffix) :
    keyedPatch full suffix i = [] := by
  match suffix, hdrop with
  | [], _ => rw [keyedPatch]
  | c :: rest, hdrop =>
    have hn := (drop_cons_nth full i c rest hdrop).1
    have hr := (drop_cons_nth full i c rest hdrop).2
    have hwc : wfKeys c = true := wfForest_nth full i c hwf hn
    cases hk : keyOf c with
    | some k =>
      simp [keyedPatch, hk, findByKey_self full i c k hnd hn hk 0,
        patch_self c hwc, keyedPatch_self full rest (i + 1) hwf hnd hr]
    | none =>
      simp [keyedPatch, hk, hn,
        patch_self c hwc, keyedPatch_self full rest (i + 1) hwf hnd hr]
  termination_by structural suffix

theorem positionalPatch_self (l : List RTree) (hw : wfForest l = true) :
    positionalPatch l l = [] := by
  match l with
  | [] => rw [positionalPatch, List.map_nil]
  | c :: rest =>
    rw [wfForest, Bool.and_eq_true] at hw
    rw [positionalPatch, patch_self c hw.1, positionalPatch_self rest hw.2,
      List.nil_append]
  termination_by structural l

end

/-- C4: committing the same tree twice in a row is idempotent on the DOM —
with sibling keys unique (the spec's stated key invariant), the second
commit of a deep-equal tree performs zero DOM writes. -/
theorem commit_idempotent (t : RTree) (node : DomNode)
    (hw : wfKeys t = true) :
    (render t node (Option.some t)).2 = [] := by
  show patch t t = []
  exact patch_self t hw

/-- Witness for C4: a keyed list under a div — recommitting it writes
nothing. -/
theorem commit_idempotent_witness :
    wfKeys
        (RTree.node (VType.strTag "div") Option.none false false
          [("id", JSVal.str "a")]
          [RTree.node (VType.strTag "li") (Option.some (JSVal.str "x"))
              false false [] [RTree.text "1"],
            RTree.node (VType.strTag "li") (Option.some (JSVal.str "y"))
              false false [] [RTree.text "2"]])
        = true
      ∧ (render
          (RTree.node (VType.strTag "div") Option.none false false
            [("id", JSVal.str "a")]
            [RTree.node (VType.strTag "li") (Option.some (JSVal.str "x"))
                false false [] [RTree.text "1"],
              RTree.node (VType.strTag "li") (Option.some (JSVal.str "y"))
                false false [] [RTree.text "2"]])
          ⟨0⟩
          (Option.some
            (RTree.node (VType.strTag "div") Option.none false false
              [("id", JSVal.str "a")]
              [RTree.node (VType.strTag "li") (Option.some (JSVal.str "x"))
                  false false [] [RTree.text "1"],
                RTree.node (VType.strTag "li") (Option.some (JSVal.str "y"))
                  false false [] [RTree.text "2"]]))).2 = [] :=
  ⟨by decide,
   commit_idempotent
     (RTree.node (VType.strTag "div") Option.none false false
       [("id", JSVal.str "a")]
       [RTree.node (VType.strTag "li") (Option.some (JSVal.str "x"))
           false false [] [RTree.text "1"],
         RTree.node (VType.strTag "li") (Option.some (JSVal.str "y"))
           false false [] [RTree.text "2"]])
     ⟨0⟩ (by decide)⟩

/-- C5 counterexample: the claim says the public render/commit operation
returns void, but the shipped declaration `render<T>(vnode, node, id?): T`
(types/core.d.ts, lines 180–184) returns the container node — two calls
into distinct containers return the two distinct containers, so the result
is not a trivial (void) value. -/
theorem render_returns_node_counterexample :
    (render (RTree.text "x") ⟨1⟩ Option.none).1 = (⟨1⟩ : DomNode)
      ∧ (render (RTree.text "x") ⟨2⟩ Option.none).1 = (⟨2⟩ : DomNode)
      ∧ (⟨1⟩ : DomNode) ≠ (⟨2⟩ : DomNode) := by
  refine ⟨rfl, rfl, ?_⟩
  decide

/-- C5 amended: `render(nextTree, container)` performs one render+patch
cycle and returns the container node it rendered into, as declared in
`types/core.d.ts`. -/
theorem render_returns_container (t : RTree) (node : DomNode)
    (prev : Option RTree) : (render t node prev).1 = node :=
  rfl

/-! ## Hook call-order mismatch is fatal -/

theorem replayHooks_ne (calls recs : List HookVariant) (i : Nat)
    (hne : calls ≠ recs) :
    ∃ j, replayHooks calls recs i =
        Except.error (HookError.orderMismatch j) := by
  induction calls generalizing recs i with
  | nil =>
    cases recs with
    | nil => exact absurd rfl hne
    | cons r rs => exact ⟨i, rfl⟩
  | cons v vs ih =>
    cases recs with
    | nil => exact ⟨i, rfl⟩
    | cons r rs =>
      by_cases hv : v = r
      · subst hv
        have hvs : vs ≠ rs := by
          intro he
          exact hne (by rw [he])
        obtain ⟨j, hj⟩ := ih rs (i + 1) hvs
        exact ⟨j, by rw [replayHooks, if_pos rfl]; exact hj⟩
      · exact ⟨i, by rw [replayHooks, if_neg hv]⟩

/-- C6: for an instance whose earlier render recorded the store, a later
render whose hook-variant call sequence differs fails fatally: the render
aborts with a structural-inconsistency error surfaced to the caller instead
of continuing with misaligned hook state. -/
theorem hook_order_mismatch_fatal (prevCalls nextCalls : List HookVariant)
    (store : HooksStore)
    (hfirst : renderHooks Option.none prevCalls = Except.ok store)
    (hne : nextCalls ≠ prevCalls) :
    ∃ j, renderHooks (Option.some store) nextCalls =
        Except.error (HookError.orderMismatch j) := by
  have hstore : store = ⟨prevCalls⟩ := by
    cases hfirst
    rfl
  subst hstore
  obtain ⟨j, hj⟩ := replayHooks_ne nextCalls prevCalls 0 hne
  exact ⟨j, by rw [renderHooks, hj]⟩

/-- Witness for C6: an instance that rendered `[state, effect]` and then
calls only `[state]` (a conditionally skipped hook) fails fatally. -/
theorem hook_order_mismatch_fatal_witness :
    renderHooks Option.none [HookVariant.state, HookVariant.effect]
        = Except.ok ⟨[HookVariant.state, HookVariant.effect]⟩
      ∧ [HookVariant.state] ≠ [HookVariant.state, HookVariant.effect]
      ∧ ∃ j, renderHooks
            (Option.some ⟨[HookVariant.state, HookVariant.effect]⟩)
            [HookVariant.state]
          = Except.error (HookError.orderMismatch j) :=
  ⟨rfl, by decide,
   hook_order_mismatch_fatal [HookVariant.state, HookVariant.effect]
     [HookVariant.state] ⟨[HookVariant.state, HookVariant.effect]⟩
     rfl (by decide)⟩

/-! ## Setter batching and stale setters -/

theorem applySetters_coalesce {α : Type} (vs : List α) (inst : Instance α)
    (w : α) (hs : inst.status = SchedState.scheduled)
    (hp : inst.pending = Option.some w) :
    applySetters vs inst = { inst with pending := Option.some (lastD w vs) } := by
  induction vs generalizing inst w with
  | nil =>
    obtain ⟨st, p, cur, log, q⟩ := inst
    simp only at hp
    rw [applySetters, lastD, ← hp]
  | cons x rest ih =>
    rw [applySetters, lastD]
    have hset : setState x inst = { inst with pending := Option.some x } := by
      rw [setState, hs]
    rw [hset]
    exact ih { inst with pending := Option.some x } x hs rfl

/-- C7: any number of synchronous state-setter calls within one scheduling
window, starting from an idle instance, coalesce: exactly one deferred
render callback is enqueued, the one render it performs observes the value
of the last setter call — a single render-log entry, never an intermediate
one with an earlier value — and a further flush of the window performs no
further render. -/
theorem setter_calls_batched {α : Type} (inst : Instance α) (v : α)
    (vs : List α) (hidle : inst.status = SchedState.idle)
    (hpend : inst.pending = Option.none) :
    (applySetters (v :: vs) inst).status = SchedState.scheduled
      ∧ (applySetters (v :: vs) inst).queued = inst.queued + 1
      ∧ (applySetters (v :: vs) inst).pending = Option.some (lastD v vs)
      ∧ flushRender (applySetters (v :: vs) inst) =
          { inst with
            current := lastD v vs
            renderLog := inst.renderLog ++ [lastD v vs] }
      ∧ flushRender (flushRender (applySetters (v :: vs) inst)) =
          flushRender (applySetters (v :: vs) inst) := by
  have hset : setState v inst =
      { inst with
        status := SchedState.scheduled
        pending := Option.some v
        queued := inst.queued + 1 } := by
    rw [setState, hidle]
  have hco := applySetters_coalesce vs
    { inst with
      status := SchedState.scheduled
      pending := Option.some v
      queued := inst.queued + 1 } v rfl rfl
  have happ : applySetters (v :: vs) inst =
      { inst with
        status := SchedState.scheduled
        pending := Option.some (lastD v vs)
        queued := inst.queued + 1 } := by
    rw [applySetters, hset, hco]
  rw [happ]
  have hflush :
      flushRender
          { inst with
            status := SchedState.scheduled
            pending := Option.some (lastD v vs)
            queued := inst.queued + 1 } =
        { inst with
          current := lastD v vs
          renderLog := inst.renderLog ++ [lastD v vs] } := by
    rw [flushRender]
    simp [hpend, hidle]
  refine ⟨rfl, rfl, rfl, hflush, ?_⟩
  rw [hflush]
  simp [flushRender, hidle]

/-- Witness for C7: from an idle instance with current value `0`, the three
synchronous setter calls `set 1; set 2; set 3` enqueue one render which
observes `3` alone. -/
theorem setter_calls_batched_witness :
    (applySetters [(1 : Int), 2, 3]
          ⟨SchedState.idle, Option.none, 0, [], 0⟩).status
        = SchedState.scheduled
      ∧ (applySetters [(1 : Int), 2, 3]
          ⟨SchedState.idle, Option.none, 0, [], 0⟩).queued = 0 + 1
      ∧ (applySetters [(1 : Int), 2, 3]
          ⟨SchedState.idle, Option.none, 0, [], 0⟩).pending
        = Option.some (lastD 1 [2, 3])
      ∧ flushRender (applySetters [(1 : Int), 2, 3]
          ⟨SchedState.idle, Option.none, 0, [], 0⟩) =
          ⟨SchedState.idle, Option.none, lastD 1 [2, 3],
            [] ++ [lastD 1 [2, 3]], 0⟩
      ∧ flushRender (flushRender (applySetters [(1 : Int), 2, 3]
          ⟨SchedState.idle, Option.none, 0, [], 0⟩)) =
          flushRender (applySetters [(1 : Int), 2, 3]
            ⟨SchedState.idle, Option.none, 0, [], 0⟩) :=
  setter_calls_batched ⟨SchedState.idle, Option.none, 0, [], 0⟩ 1 [2, 3]
    rfl rfl

/-- C8: a state-setter call on an unmounted instance is a silent no-op — no
error is possible (`setState` is total), no render is scheduled and the
whole instance state, render log and callback queue included, is left
unchanged. -/
theorem stale_setter_noop {α : Type} (inst : Instance α) (v : α)
    (hun : inst.status = SchedState.unmounted) :
    setState v inst = inst := by
  rw [setState, hun]

/-- Witness for C8: a setter call with value `5` on an unmounted instance
leaves it untouched. -/
theorem stale_setter_noop_witness :
    setState (5 : Int) ⟨SchedState.unmounted, Option.none, 7, [7], 0⟩ =
      ⟨SchedState.unmounted, Option.none, 7, [7], 0⟩ :=
  stale_setter_noop ⟨SchedState.unmounted, Option.none, 7, [7], 0⟩ 5 rfl

end Atomico
